import Mathlib

/-
  Verification of the lifetrack Telegram bot against its specification.

  The Python sources are shallowly embedded: pure string manipulation is
  translated to functions on `List Char` / `String`, stateful methods on
  `RetryContext` become functions returning the updated context, and calls
  into external libraries (the FAISS index, the regex engine, the LLM, the
  GraphQL client, the Telegram API) are modelled as oracle parameters.
-/

namespace Lifetrack

/-! ### Python string primitives

`isPySpace` models the characters matched by Python's `\s` (and stripped by
`str.strip()`) in the ASCII range: space (32), tab (9), newline (10),
carriage return (13), vertical tab (11) and form feed (12). -/

def isPySpace (c : Char) : Bool :=
  c.toNat == 32 || c.toNat == 9 || c.toNat == 10 || c.toNat == 13 ||
    c.toNat == 11 || c.toNat == 12

/-- Python `str.strip()` on a list of characters. -/
def pyStrip (l : List Char) : List Char :=
  ((l.dropWhile isPySpace).reverse.dropWhile isPySpace).reverse

/-- Python `str.strip()` on a `String`. -/
def pyStripS (s : String) : String :=
  String.mk (pyStrip s.data)

/-- Worker for `re.sub(r'\s+', ' ', ·)`: `inRun` records whether the previous
character belonged to a whitespace run that has already emitted its `' '`. -/
def reSubSpaceAux : Bool → List Char → List Char
  | _, [] => []
  | inRun, c :: rest =>
    if isPySpace c then
      if inRun then reSubSpaceAux true rest
      else ' ' :: reSubSpaceAux true rest
    else
      c :: reSubSpaceAux false rest

/-- Python `re.sub(r'\s+', ' ', ·)`: every maximal whitespace run becomes a
single space. -/
def reSubSpace (l : List Char) : List Char :=
  reSubSpaceAux false l

/-- Python `str.lower()` (ASCII model, via `Char.toLower`). -/
def pyLower (s : String) : String :=
  String.mk (s.data.map Char.toLower)

/-- `charsStartWith l pat`: `pat` starts the list `l` (Python `startswith`). -/
def charsStartWith : List Char → List Char → Bool
  | _, [] => true
  | [], _ :: _ => false
  | c :: cs, d :: ds => c == d && charsStartWith cs ds

/-- `charsContain l pat`: `pat` occurs contiguously in `l` (Python `in`). -/
def charsContain : List Char → List Char → Bool
  | [], pat => pat.isEmpty
  | c :: cs, pat => charsStartWith (c :: cs) pat || charsContain cs pat

/-- Python `pat in hay` on strings. -/
def strContains (hay pat : String) : Bool :=
  charsContain hay.data pat.data

/-- Python truthiness of an `Optional[str]`: not `None` and not empty. -/
def optStrTruthy : Option String → Bool
  | none => false
  | some s => !s.isEmpty

/-! ### `llm/retry_strategy.py` -/

/-- Outcome of retry decision (`RetryDecision`). -/
inductive RetryDecision where
  | retry
  | fail
  | success
deriving DecidableEq, Repr

/-- Context for a retry attempt (`RetryContext`). -/
structure RetryContext where
  attempt : Nat
  max_attempts : Nat
  original_query : String
  user_message : String
  last_error : Option String
  last_query : Option String
  validation_errors : List String
deriving DecidableEq, Repr

/-- `RetryContext.has_retries_left`. -/
def RetryContext.has_retries_left (c : RetryContext) : Bool :=
  decide (c.attempt < c.max_attempts)

/-- `RetryContext.record_failure`: mutates `last_error`, conditionally
`last_query`, and appends to `validation_errors`. -/
def RetryContext.record_failure (c : RetryContext) (error : String)
    (failed_query : Option String) : RetryContext :=
  { c with
    last_error := some error
    last_query := if optStrTruthy failed_query then failed_query else c.last_query
    validation_errors := c.validation_errors ++ [error] }

/-- `RetryContext._extract_error_type`. -/
def extract_error_type (error : String) : String :=
  if strContains error "Cannot query field" then "cannot_query_field"
  else if strContains error "Unknown argument" then "unknown_argument"
  else if strContains error "Expected type" then "type_mismatch"
  else "unknown"

/-- `RetryContext.is_repeated_error`: the last two recorded validation errors
are equal or classify to the same error type. -/
def RetryContext.is_repeated_error (c : RetryContext) : Bool :=
  if c.validation_errors.length < 2 then false
  else
    match c.validation_errors.reverse with
    | last :: previous :: _ =>
      last == previous || extract_error_type last == extract_error_type previous
    | _ => false

/-- `RetryStrategy` configuration. -/
structure RetryStrategy where
  max_attempts : Nat
  enable_validation : Bool
  fail_on_duplicate : Bool
deriving DecidableEq, Repr

/-- The retryable error patterns of `RetryStrategy._is_retryable_error`. -/
def retryable_patterns : List String :=
  ["Cannot query field", "Unknown argument", "Expected type",
   "GRAPHQL_VALIDATION_FAILED"]

/-- The non-retryable error patterns of `RetryStrategy._is_retryable_error`. -/
def non_retryable_patterns : List String :=
  ["authentication", "authorization", "timeout", "network", "connection"]

/-- `RetryStrategy._is_retryable_error`: case-insensitive substring match
against the retryable patterns, then the non-retryable ones; unknown errors
default to retryable. -/
def is_retryable_error (error : String) : Bool :=
  let error_lower := pyLower error
  if retryable_patterns.any (fun p => strContains error_lower (pyLower p)) then
    true
  else if non_retryable_patterns.any (fun p => strContains error_lower (pyLower p)) then
    false
  else
    true

/-- `RetryStrategy.should_retry`: records the failure on the context, then
decides.  Returns the decision together with the updated context (the Python
method mutates `context` in place). -/
def RetryStrategy.should_retry (s : RetryStrategy) (context : RetryContext)
    (error : String) (failed_query : Option String) :
    RetryDecision × RetryContext :=
  let context := context.record_failure error failed_query
  let decision :=
    if !context.has_retries_left then RetryDecision.fail
    else if context.is_repeated_error then RetryDecision.fail
    else if is_retryable_error error then RetryDecision.retry
    else RetryDecision.fail
  (decision, context)

/-- `RetryStrategy._normalize_query`: strip, collapse whitespace runs to a
single space, lowercase. -/
def normalize_query (query : String) : String :=
  let normalized := String.mk (reSubSpace (pyStrip query.data))
  pyLower normalized

/-- `RetryStrategy.check_duplicate_query`: a retry produced a query equal,
after normalization, to the previously recorded failed query. -/
def RetryStrategy.check_duplicate_query (s : RetryStrategy)
    (context : RetryContext) (new_query : String) : Bool :=
  if !s.fail_on_duplicate then false
  else if optStrTruthy context.last_query then
    match context.last_query with
    | some last_query => normalize_query new_query == normalize_query last_query
    | none => false
  else false

/-- `RetryStrategy.create_context`: a fresh context at attempt 1. -/
def RetryStrategy.create_context (s : RetryStrategy) (user_message : String)
    (original_query : String) : RetryContext :=
  { attempt := 1
    max_attempts := s.max_attempts
    original_query := original_query
    user_message := user_message
    last_error := none
    last_query := none
    validation_errors := [] }

/-- `create_retry_strategy`: factory with `fail_on_duplicate=True`. -/
def create_retry_strategy (max_attempts : Nat) (enable_validation : Bool) :
    RetryStrategy :=
  { max_attempts := max_attempts
    enable_validation := enable_validation
    fail_on_duplicate := true }

/-! ### `archived_llm/handlers/message.py`: `_generate_with_retry`

One loop iteration either gets a clarification request from the generator, a
validation failure (with the failed query text), a successfully generated and
executed query, or an exception raised during generation/execution.  The
generator + GraphQL client are modelled by the oracle `gen`; `raised_query`
models `query_result.get('query') if 'query_result' in locals() else None`. -/

inductive GenOutcome where
  | needs_clarification (question : String)
  | validation_failed (validation_errors : List String) (query : String)
  | executed (query : String) (result : String)
  | raises (error : String) (raised_query : Option String)

/-- Result of `_generate_with_retry` as observed by `handle_message`. -/
inductive GenResult where
  | needs_clarification (question : String)
  | error (message : String)
  | success (result : String)
  | raised (error : String)
deriving DecidableEq, Repr

/-- The clarification sent when the retry strategy says FAIL. -/
def rephrase_question : String :=
  "I'm having trouble generating a valid query. Could you rephrase?"

/-- The clarification sent when a duplicate query is detected. -/
def stuck_question : String :=
  "I'm stuck on this request. Please try rephrasing it differently."

/-- The error returned after exhausting retries. -/
def exhausted_error : String :=
  "I tried multiple times but couldn't generate a valid query. Please rephrase your request."

/-- The `retry_context.attempt += 1` statement of `_generate_with_retry`. -/
def RetryContext.next_attempt (c : RetryContext) : RetryContext :=
  { c with attempt := c.attempt + 1 }

/-- The loop of `_generate_with_retry` (lines 129-213 of `message.py`). -/
def generate_with_retry (strat : RetryStrategy) (gen : RetryContext → GenOutcome)
    (ctx : RetryContext) : GenResult :=
  if h : ctx.has_retries_left then
    match gen ctx with
    | .needs_clarification q => .needs_clarification q
    | .validation_failed validation_errors failed_query =>
      let error_str := String.intercalate "; " validation_errors
      let r := strat.should_retry ctx error_str (some failed_query)
      if r.1 = RetryDecision.fail then
        .needs_clarification rephrase_question
      else if strat.check_duplicate_query r.2 failed_query then
        .needs_clarification stuck_question
      else
        generate_with_retry strat gen r.2.next_attempt
    | .executed _ result => .success result
    | .raises error_str raised_query =>
      if is_retryable_error error_str then
        let r := strat.should_retry ctx error_str raised_query
        if r.1 = RetryDecision.fail then
          .raised error_str
        else
          generate_with_retry strat gen r.2.next_attempt
      else
        .raised error_str
  else
    .error exhausted_error
termination_by ctx.max_attempts - ctx.attempt
decreasing_by
  all_goals
    simp only [RetryContext.has_retries_left, decide_eq_true_eq] at h
    simp only [RetryStrategy.should_retry, RetryContext.record_failure,
      RetryContext.next_attempt]
    omega

/-- How many times the loop body of `_generate_with_retry` calls
`generator.generate_query`, for a given run. -/
def generation_attempts (strat : RetryStrategy) (gen : RetryContext → GenOutcome)
    (ctx : RetryContext) : Nat :=
  if h : ctx.has_retries_left then
    match gen ctx with
    | .needs_clarification _ => 1
    | .validation_failed validation_errors failed_query =>
      let error_str := String.intercalate "; " validation_errors
      let r := strat.should_retry ctx error_str (some failed_query)
      if r.1 = RetryDecision.fail then 1
      else if strat.check_duplicate_query r.2 failed_query then 1
      else 1 + generation_attempts strat gen r.2.next_attempt
    | .executed _ _ => 1
    | .raises error_str raised_query =>
      if is_retryable_error error_str then
        let r := strat.should_retry ctx error_str raised_query
        if r.1 = RetryDecision.fail then 1
        else 1 + generation_attempts strat gen r.2.next_attempt
      else 1
  else 0
termination_by ctx.max_attempts - ctx.attempt
decreasing_by
  all_goals
    simp only [RetryContext.has_retries_left, decide_eq_true_eq] at h
    simp only [RetryStrategy.should_retry, RetryContext.record_failure,
      RetryContext.next_attempt]
    omega

/-! ### `archived_llm/handlers/message.py`: `handle_message` error path

`handle_message` wraps the whole message-processing body in
`try ... except Exception`; on an exception it builds a user-facing error
reply (via the LLM formatter when available, itself guarded by a nested
`try`) and sends it.  The formatter is an oracle that may itself fail. -/

def formatter_fallback_reply : String :=
  "❌ Sorry, something went wrong. Please try again."

def no_formatter_reply : String :=
  "❌ Sorry, I encountered an error. Please try again."

/-- Lines 90-103 of `message.py`: the reply text produced for an exception
`e` raised while processing `user_message`. -/
def handle_message_error_reply
    (formatter : Option (String → String → Except String String))
    (e : String) (user_message : String) : String :=
  match formatter with
  | some format_error =>
    match format_error e user_message with
    | .ok error_message => error_message
    | .error _ => formatter_fallback_reply
  | none => no_formatter_reply

/-- The archived `handle_message` as a whole: processing either produces a
list of replies or raises; an exception is converted into exactly one
user-facing reply rather than propagated. -/
def handle_message_replies
    (formatter : Option (String → String → Except String String))
    (user_message : String) (processing : Except String (List String)) :
    List String :=
  match processing with
  | .ok replies => replies
  | .error e => [handle_message_error_reply formatter e user_message]

/-! ### `handlers/message_handlers.py`: `create_note_from_message`

The regex parts: `re.findall(r'#(\w+)', text)` and
`re.sub(r'#\w+', '', text)`, where `\w` is `[A-Za-z0-9_]` (ASCII model). -/

def isWordChar (c : Char) : Bool :=
  c.isAlphanum || c == '_'

/-- Worker for `re.findall(r'#(\w+)', ·)`: a left-to-right non-overlapping
scan.  The second argument is `some acc` while inside a candidate tag whose
word characters so far are `acc` (reversed), `none` otherwise. -/
def findTagsAux : List Char → Option (List Char) → List String
  | [], none => []
  | [], some acc => if acc.isEmpty then [] else [String.mk acc.reverse]
  | c :: rest, none =>
    if c == '#' then findTagsAux rest (some [])
    else findTagsAux rest none
  | c :: rest, some acc =>
    if isWordChar c then findTagsAux rest (some (c :: acc))
    else
      (if acc.isEmpty then [] else [String.mk acc.reverse]) ++
        (if c == '#' then findTagsAux rest (some [])
         else findTagsAux rest none)

/-- `re.findall(r'#(\w+)', ·)`. -/
def findTags (l : List Char) : List String :=
  findTagsAux l none

/-- Worker for `re.sub(r'#\w+', '', ·)`, with the same scan state as
`findTagsAux`: a `#` followed by at least one word character is dropped
together with its run, a bare `#` is kept. -/
def removeTagsAux : List Char → Option (List Char) → List Char
  | [], none => []
  | [], some acc => if acc.isEmpty then ['#'] else []
  | c :: rest, none =>
    if c == '#' then removeTagsAux rest (some [])
    else c :: removeTagsAux rest none
  | c :: rest, some acc =>
    if isWordChar c then removeTagsAux rest (some (c :: acc))
    else
      (if acc.isEmpty then ['#'] else []) ++
        (if c == '#' then removeTagsAux rest (some [])
         else c :: removeTagsAux rest none)

/-- `re.sub(r'#\w+', '', ·)`. -/
def removeTags (l : List Char) : List Char :=
  removeTagsAux l none

/-- Python `str.split('\n')`. -/
def splitLines : List Char → List (List Char)
  | [] => [[]]
  | c :: rest =>
    let ls := splitLines rest
    if c == '\n' then [] :: ls
    else (c :: ls.headD []) :: ls.tail

def invalid_note_reply : String :=
  "❌ **Invalid Note Format**\n\nPlease provide at least a title and content.\n\nExample:\n`Meeting Notes\nDiscussed project timeline\n#work #meeting`"

def note_error_reply : String :=
  "❌ Error creating note. Please try again."

def note_failed_reply : String :=
  "❌ Failed to create note."

/-- Parsed note: title, content and tags (lines 176-193). -/
def parse_note (message_text : String) : String × String × List String :=
  let lines := (splitLines (pyStrip message_text.data)).map String.mk
  let tags := findTags message_text.data
  let clean_text := pyStripS (String.mk (removeTags message_text.data))
  if 2 ≤ lines.length then
    let title := pyStripS (lines.headD "")
    let content := pyStripS (String.intercalate "\n" (lines.drop 1))
    let content := pyStripS (String.mk (removeTags content.data))
    (title, content, tags)
  else
    (String.mk (clean_text.data.take 50), clean_text, tags)

/-- `create_note_from_message` (lines 168-240): the reply it sends.  The
GraphQL `createNote` call is the oracle `execute`; `.ok (some title)` models a
result carrying a `createNote` object, `.ok none` a result without one, and
`.error e` an exception raised during execution. -/
def create_note_reply (message_text : String)
    (execute : Except String (Option String)) : String :=
  let parsed := parse_note message_text
  let title := parsed.1
  let content := parsed.2.1
  let tags := parsed.2.2
  if title.isEmpty || content.isEmpty then
    invalid_note_reply
  else
    match execute with
    | .error _ => note_error_reply
    | .ok none => note_failed_reply
    | .ok (some note_title) =>
      let tags_str :=
        if tags.isEmpty then ""
        else String.intercalate " " (tags.map (fun tag => "#" ++ tag))
      "✅ **Note Created!**\n\n📝 " ++ note_title ++ "\n" ++ tags_str ++
        "\n\nUse /notes to view all your notes."

/-! ### `llm/rag_store.py`

A document returned by `search`: its `type` tag (`"example"` or `"schema"`)
and its L2-distance `score` (set by `search`; read back via
`.get('score', 999)`).  Scores are modelled as rationals: the claims are
about the control flow of the threshold filter, not about floating-point
arithmetic. -/

structure RagDoc where
  type : String
  score : Option ℚ
deriving DecidableEq, Repr

/-- `GraphQLRAGStore._preprocess_query` (lines 298-332). -/
def preprocess_query (query : String) : String :=
  let query_lower := pyLower query
  let session_keywords :=
    ["start", "begin", "stop", "end", "pause", "resume", "session",
     "practice", "activity"]
  if session_keywords.any (fun keyword => strContains query_lower keyword) then
    if strContains query_lower "learning" && !strContains query_lower "plan" then
      query ++ " coding practice activity session startSession"
    else
      query ++ " activity session practice startSession stopSession"
  else if (strContains query_lower "schedule" || strContains query_lower "calendar")
      && !strContains query_lower "learning plan" then
    query ++ " calendar events today tomorrow week"
  else if ["stats", "statistics", "report", "summary", "hours", "time spent"].any
      (fun word => strContains query_lower word) then
    query ++ " statistics activityStats hours breakdown"
  else if ["note", "notes", "memo", "remember"].any
      (fun word => strContains query_lower word) then
    query ++ " notes createNote searchNotes"
  else
    query

def RELEVANCE_THRESHOLD : ℚ := 3 / 2

/-- The first `for example in all_examples` loop of `get_relevant_context`:
append the example when its score is below the threshold, then break once
`max_examples` have been collected. -/
def collect_examples (max_examples : Nat) (examples : List RagDoc) :
    List RagDoc → List RagDoc
  | [] => examples
  | e :: rest =>
    let examples :=
      if e.score.getD 999 < RELEVANCE_THRESHOLD then examples ++ [e] else examples
    if max_examples ≤ examples.length then examples
    else collect_examples max_examples examples rest

/-- The fallback loop of `get_relevant_context` (lines 282-287): when fewer
than `max_examples` scored below the threshold, include lower-quality
matches. -/
def loosen_examples (max_examples : Nat) (examples : List RagDoc) :
    List RagDoc → List RagDoc
  | [] => examples
  | e :: rest =>
    let examples := examples ++ [e]
    if max_examples ≤ examples.length then examples
    else loosen_examples max_examples examples rest

/-- Result of `get_relevant_context`. -/
structure RagContext where
  examples : List RagDoc
  schema_parts : List RagDoc
  query : String
deriving Repr

/-- `GraphQLRAGStore.get_relevant_context` (lines 243-296).  The embedding
model + FAISS lookup of `search` is the oracle `search` (query text and `k`
in, scored documents out). -/
def get_relevant_context (search : String → Nat → List RagDoc)
    (query : String) (max_examples : Nat) : RagContext :=
  let search_query := preprocess_query query
  let results := search search_query 15
  let all_examples := results.filter (fun r => r.type == "example")
  let all_schema := results.filter (fun r => r.type == "schema")
  let examples := collect_examples max_examples [] all_examples
  let examples :=
    if examples.length < max_examples then
      loosen_examples max_examples examples (all_examples.drop examples.length)
    else examples
  { examples := examples
    schema_parts := all_schema.take 3
    query := query }

/-! ### `llm/graphql_generator.py`: structured extraction

`lbrace`/`rbrace` are the two brace characters (codes 123 and 125). -/

def lbrace : Char := Char.ofNat 123

def rbrace : Char := Char.ofNat 125

/-- `GraphQLGenerator._validate_brackets` (lines 374-396): `none` on a brace
count mismatch or when no braces are present, otherwise the stripped query. -/
def validate_brackets (query : String) : Option String :=
  let open_count := query.data.count lbrace
  let close_count := query.data.count rbrace
  if open_count ≠ close_count then none
  else if open_count == 0 then none
  else some (pyStripS query)

/-- The `re` library calls made by `_extract_query_structured`, as oracles:
the code-block match group, the conversational-prefix substitution, the
`query`/`mutation` keyword search and the `\{.*\}` search. -/
structure ReOracle where
  code_block : String → Option String
  strip_conversational : String → String
  keyword_search : String → String → Option String
  brace_search : String → Option String

/-- `GraphQLGenerator._extract_query_structured` (lines 322-372): every
successful return path goes through `validate_brackets`. -/
def extract_query_structured (re : ReOracle) (text : String) : Option String :=
  let text := pyStripS text
  let text :=
    match re.code_block text with
    | some group => pyStripS group
    | none => text
  let text := pyStripS (re.strip_conversational text)
  if charsStartWith text.data "query".data
      || charsStartWith text.data "mutation".data
      || charsStartWith text.data [lbrace] then
    validate_brackets text
  else
    match re.keyword_search "query" text with
    | some extracted => validate_brackets extracted
    | none =>
      match re.keyword_search "mutation" text with
      | some extracted => validate_brackets extracted
      | none =>
        match re.brace_search text with
        | some extracted => validate_brackets extracted
        | none => none

/-! ### `handlers/notifications.py`

A pending notification as returned by the `pendingNotifications` query. -/

structure NotifData where
  id : String
  channel : String
  notificationType : String
  message : String
deriving DecidableEq, Repr

/-- An entry of the `active_users` dict: telegram id and the (possibly
missing) per-user GraphQL client, identified abstractly by a `Nat`. -/
structure ActiveUser where
  telegram_id : Nat
  gql_client : Option Nat
deriving DecidableEq, Repr

/-- The inner `for notif in notifications` loop (lines 60-93): only
notifications whose `channel` is `'telegram'` are sent; the rest are skipped
by `continue`. -/
def process_user_notifications (telegram_id : Nat) :
    List NotifData → List (Nat × NotifData)
  | [] => []
  | notif :: rest =>
    if notif.channel == "telegram" then
      (telegram_id, notif) :: process_user_notifications telegram_id rest
    else
      process_user_notifications telegram_id rest

/-- `check_and_send_notifications` (lines 14-99): the send events of one
pass.  `pending c` is the oracle for the `pendingNotifications` query on
client `c`; users without a client are skipped. -/
def check_and_send_notifications (active_users : List ActiveUser)
    (pending : Nat → List NotifData) : List (Nat × NotifData) :=
  if active_users.isEmpty then []
  else
    active_users.flatMap fun user =>
      match user.gql_client with
      | none => []
      | some c => process_user_notifications user.telegram_id (pending c)

/-- One event of the background loop: a notification pass or a fixed sleep. -/
inductive LoopEvent where
  | check (sends : List (Nat × NotifData))
  | sleep (seconds : Nat)
deriving DecidableEq, Repr

/-- `start_notification_loop` (lines 188-205): `while True` — each pass runs
`check_and_send_notifications` then sleeps `interval` seconds.  The infinite
loop is observed through its first `passes` iterations. -/
def notification_loop (active_users : List ActiveUser)
    (pending : Nat → List NotifData) (interval : Nat) :
    Nat → List LoopEvent
  | 0 => []
  | passes + 1 =>
    LoopEvent.check (check_and_send_notifications active_users pending) ::
      LoopEvent.sleep interval ::
        notification_loop active_users pending interval passes

/-- The default `interval` of `start_notification_loop`, also the value
passed by `post_init` in `main.py`. -/
def notification_interval : Nat := 60

/-! ### `bot/main.py`: handler registration -/

/-- A handler registration made by `main()`. -/
inductive BotHandler where
  | command (name : String)
  | callbackQuery
  | documentMessage
  | photoMessage
  | textMessage
deriving DecidableEq, Repr

/-- The `application.add_handler` calls of `main()` (lines 79-113), in
order. -/
def main_handlers : List BotHandler :=
  [ BotHandler.command "start"
  , BotHandler.command "help"
  , BotHandler.command "link"
  , BotHandler.command "logout"
  , BotHandler.command "session"
  , BotHandler.command "skills"
  , BotHandler.command "schedule"
  , BotHandler.command "notes"
  , BotHandler.command "stats"
  , BotHandler.command "files"
  , BotHandler.command "cd"
  , BotHandler.callbackQuery
  , BotHandler.documentMessage
  , BotHandler.photoMessage
  , BotHandler.textMessage ]

/-- The command list of the spec's External Interfaces section. -/
def spec_commands : List String :=
  ["start", "help", "session", "schedule", "notes", "stats", "files", "cd",
   "logout", "link"]

/-! ### Normal-form predicates used to reason about `_normalize_query` -/

/-- The first character, if any, is not whitespace. -/
def headOk (l : List Char) : Prop :=
  ∀ c, l.head? = some c → isPySpace c = false

/-- The last character, if any, is not whitespace. -/
def lastOk (l : List Char) : Prop :=
  ∀ c, l.getLast? = some c → isPySpace c = false

/-! ## Theorems -/

/-! ### Groundwork -/

theorem should_retry_snd (s : RetryStrategy) (c : RetryContext) (e : String)
    (fq : Option String) :
    (s.should_retry c e fq).2 = c.record_failure e fq := rfl

theorem record_failure_attempt (c : RetryContext) (e : String)
    (fq : Option String) : (c.record_failure e fq).attempt = c.attempt := rfl

theorem record_failure_max_attempts (c : RetryContext) (e : String)
    (fq : Option String) :
    (c.record_failure e fq).max_attempts = c.max_attempts := rfl

theorem record_failure_has_retries_left (c : RetryContext) (e : String)
    (fq : Option String) :
    (c.record_failure e fq).has_retries_left = c.has_retries_left := rfl

/-! ### Claim C7: handler registration in `main()` -/

/-- Claim C7: for every command in the spec's list — `/start`, `/help`,
`/session`, `/schedule`, `/notes`, `/stats`, `/files`, `/cd`, `/logout`,
`/link` — `main()` registers a command handler for exactly that command
string, and it also registers a callback-query handler and message handlers
for text, document and photo updates. -/
theorem main_registers_spec_commands :
    (∀ c ∈ spec_commands, BotHandler.command c ∈ main_handlers)
    ∧ BotHandler.callbackQuery ∈ main_handlers
    ∧ BotHandler.documentMessage ∈ main_handlers
    ∧ BotHandler.photoMessage ∈ main_handlers
    ∧ BotHandler.textMessage ∈ main_handlers := by
  decide

/-! ### Claim C9: frame conditions of `should_retry` -/

/-- Claim C9: every call to `should_retry context error failed_query` appends
exactly one element (`error`) to `context.validation_errors`, sets
`context.last_error` to `error` (and `context.last_query` to `failed_query`
exactly when `failed_query` is truthy, i.e. non-`None` and non-empty),
regardless of the decision returned, while leaving `attempt`, `max_attempts`,
`user_message` and `original_query` unchanged. -/
theorem should_retry_frame (s : RetryStrategy) (c : RetryContext)
    (error : String) (failed_query : Option String) :
    (s.should_retry c error failed_query).2.validation_errors
        = c.validation_errors ++ [error]
    ∧ (s.should_retry c error failed_query).2.last_error = some error
    ∧ (s.should_retry c error failed_query).2.last_query
        = (if optStrTruthy failed_query then failed_query else c.last_query)
    ∧ (s.should_retry c error failed_query).2.attempt = c.attempt
    ∧ (s.should_retry c error failed_query).2.max_attempts = c.max_attempts
    ∧ (s.should_retry c error failed_query).2.user_message = c.user_message
    ∧ (s.should_retry c error failed_query).2.original_query
        = c.original_query :=
  ⟨rfl, rfl, rfl, rfl, rfl, rfl, rfl⟩

/-! ### Claim C3: retryable/fatal error classification -/

/-- Claim C3: for a context that, after recording the failure, still has
retries left and shows no repeated error, `should_retry` returns `RETRY` for
an error containing one of the retryable patterns (case-insensitively), and
`FAIL` for an error containing one of the fatal patterns and none of the
retryable ones. -/
theorem should_retry_classifies (s : RetryStrategy) (c₁ c₂ : RetryContext)
    (e₁ e₂ : String) (fq₁ fq₂ : Option String)
    (h₁ : (c₁.record_failure e₁ fq₁).has_retries_left = true)
    (h₂ : (c₁.record_failure e₁ fq₁).is_repeated_error = false)
    (h₃ : retryable_patterns.any
      (fun p => strContains (pyLower e₁) (pyLower p)) = true)
    (h₄ : (c₂.record_failure e₂ fq₂).has_retries_left = true)
    (h₅ : (c₂.record_failure e₂ fq₂).is_repeated_error = false)
    (h₆ : retryable_patterns.any
      (fun p => strContains (pyLower e₂) (pyLower p)) = false)
    (h₇ : non_retryable_patterns.any
      (fun p => strContains (pyLower e₂) (pyLower p)) = true) :
    (s.should_retry c₁ e₁ fq₁).1 = RetryDecision.retry
    ∧ (s.should_retry c₂ e₂ fq₂).1 = RetryDecision.fail := by
  constructor
  · simp [RetryStrategy.should_retry, is_retryable_error, h₁, h₂, h₃]
  · simp [RetryStrategy.should_retry, is_retryable_error, h₄, h₅, h₆, h₇]

/-- Witness for C3: `"Cannot query field \"foo\""` is classified RETRY and
`"connection refused"` FAIL, from a fresh first-attempt context. -/
theorem should_retry_classifies_witness :
    ((create_retry_strategy 2 true).should_retry
        ⟨1, 2, "", "msg", none, none, []⟩ "Cannot query field \"foo\"" none).1
      = RetryDecision.retry
    ∧ ((create_retry_strategy 2 true).should_retry
        ⟨1, 2, "", "msg", none, none, []⟩ "connection refused" none).1
      = RetryDecision.fail :=
  should_retry_classifies (create_retry_strategy 2 true)
    ⟨1, 2, "", "msg", none, none, []⟩ ⟨1, 2, "", "msg", none, none, []⟩
    "Cannot query field \"foo\"" "connection refused" none none
    (by decide) (by decide) (by decide) (by decide) (by decide) (by decide)
    (by decide)

/-! ### Claim C2: repeated errors and duplicate queries abort early -/

/-- Claim C2: if the last two recorded validation errors are identical (or
classify to the same type under `_extract_error_type`), `should_retry`
returns FAIL; if the newly generated query equals the previously recorded
failed query after whitespace/case normalization, `check_duplicate_query`
returns True; and in either case `_generate_with_retry` replies with a
clarification asking the user to rephrase instead of retrying. -/
theorem repeated_or_duplicate_aborts :
    (∀ (s : RetryStrategy) (c : RetryContext) (e : String) (fq : Option String),
      (c.record_failure e fq).is_repeated_error = true →
      (s.should_retry c e fq).1 = RetryDecision.fail)
    ∧ (∀ (s : RetryStrategy) (c : RetryContext) (new_query last_query : String),
      s.fail_on_duplicate = true →
      c.last_query = some last_query →
      last_query.isEmpty = false →
      normalize_query new_query = normalize_query last_query →
      s.check_duplicate_query c new_query = true)
    ∧ (∀ (strat : RetryStrategy) (gen : RetryContext → GenOutcome)
        (ctx : RetryContext) (errs : List String) (q : String),
      ctx.has_retries_left = true →
      gen ctx = GenOutcome.validation_failed errs q →
      (strat.should_retry ctx (String.intercalate "; " errs) (some q)).1
          = RetryDecision.fail →
      generate_with_retry strat gen ctx
          = GenResult.needs_clarification rephrase_question)
    ∧ (∀ (strat : RetryStrategy) (gen : RetryContext → GenOutcome)
        (ctx : RetryContext) (errs : List String) (q : String),
      ctx.has_retries_left = true →
      gen ctx = GenOutcome.validation_failed errs q →
      (strat.should_retry ctx (String.intercalate "; " errs) (some q)).1
          ≠ RetryDecision.fail →
      strat.check_duplicate_query
          (strat.should_retry ctx (String.intercalate "; " errs) (some q)).2 q
          = true →
      generate_with_retry strat gen ctx
          = GenResult.needs_clarification stuck_question)
    ∧ strContains rephrase_question "rephrase" = true
    ∧ strContains stuck_question "rephras" = true := by
  refine ⟨?_, ?_, ?_, ?_, by decide, by decide⟩
  · intro s c e fq h
    simp [RetryStrategy.should_retry, h]
  · intro s c new_query last_query h₁ h₂ h₃ h₄
    simp [RetryStrategy.check_duplicate_query, h₁, h₂, h₃, h₄, optStrTruthy]
  · intro strat gen ctx errs q h₁ h₂ h₃
    unfold generate_with_retry
    simp [h₁, h₂, h₃]
  · intro strat gen ctx errs q h₁ h₂ h₃ h₄
    unfold generate_with_retry
    simp [h₁, h₂, h₃, h₄]

/-- Witness for C2: a second identical validation error makes `should_retry`
FAIL; a duplicate (up to case and whitespace) query makes
`check_duplicate_query` True; both paths of `_generate_with_retry` reply with
the rephrase/stuck clarifications. -/
theorem repeated_or_duplicate_aborts_witness :
    ((create_retry_strategy 2 true).should_retry
        ⟨1, 2, "", "msg", some "err A", some "q1", ["err A"]⟩ "err A" none).1
      = RetryDecision.fail
    ∧ (create_retry_strategy 2 true).check_duplicate_query
        ⟨1, 2, "", "msg", some "e", some "query \x7b a \x7d", []⟩
        "QUERY  \x7b a \x7d" = true
    ∧ generate_with_retry (create_retry_strategy 2 true)
        (fun _ => GenOutcome.validation_failed ["timeout"] "q")
        ((create_retry_strategy 2 true).create_context "msg" "")
      = GenResult.needs_clarification rephrase_question
    ∧ generate_with_retry (create_retry_strategy 2 true)
        (fun _ => GenOutcome.validation_failed ["Cannot query field x"] "q")
        ((create_retry_strategy 2 true).create_context "msg" "")
      = GenResult.needs_clarification stuck_question := by
  obtain ⟨h₁, h₂, h₃, h₄, -, -⟩ := repeated_or_duplicate_aborts
  refine ⟨h₁ _ _ _ _ (by decide), h₂ _ _ _ "query \x7b a \x7d" (by decide)
    (by decide) (by decide) (by decide), h₃ _ _ _ ["timeout"] "q" (by decide)
    rfl (by decide), h₄ _ _ _ ["Cannot query field x"] "q" (by decide) rfl
    (by decide) (by decide)⟩

/-! ### Claim C1: the bounded retry loop -/

theorem generation_attempts_le_aux (n : Nat) :
    ∀ (strat : RetryStrategy) (gen : RetryContext → GenOutcome)
      (ctx : RetryContext), ctx.max_attempts - ctx.attempt ≤ n →
      generation_attempts strat gen ctx ≤ ctx.max_attempts - ctx.attempt := by
  induction n with
  | zero =>
    intro strat gen ctx h
    have hb : ctx.has_retries_left = false := by
      simp only [RetryContext.has_retries_left, decide_eq_false_iff_not]
      omega
    unfold generation_attempts
    simp [hb]
  | succ n ih =>
    intro strat gen ctx h
    by_cases hr : ctx.has_retries_left = true
    · have hlt : ctx.attempt < ctx.max_attempts := by
        simpa [RetryContext.has_retries_left] using hr
      unfold generation_attempts
      rcases hg : gen ctx with q | ⟨errs, fq⟩ | ⟨q, res⟩ | ⟨e, rq⟩ <;>
        simp only [hg, hr, dif_pos] <;> try omega
      · split
        · omega
        · split
          · omega
          · have hstep := ih strat gen
              (strat.should_retry ctx (String.intercalate "; " errs)
                (some fq)).2.next_attempt
              (by show ctx.max_attempts - (ctx.attempt + 1) ≤ n; omega)
            have heq : ((strat.should_retry ctx (String.intercalate "; " errs)
                  (some fq)).2.next_attempt).max_attempts
                - ((strat.should_retry ctx (String.intercalate "; " errs)
                  (some fq)).2.next_attempt).attempt
                = ctx.max_attempts - (ctx.attempt + 1) := rfl
            rw [heq] at hstep
            omega
      · split
        · split
          · omega
          · have hstep := ih strat gen
              (strat.should_retry ctx e rq).2.next_attempt
              (by show ctx.max_attempts - (ctx.attempt + 1) ≤ n; omega)
            have heq : ((strat.should_retry ctx e rq).2.next_attempt).max_attempts
                - ((strat.should_retry ctx e rq).2.next_attempt).attempt
                = ctx.max_attempts - (ctx.attempt + 1) := rfl
            rw [heq] at hstep
            omega
        · omega
    · have hb : ctx.has_retries_left = false := by
        revert hr
        cases ctx.has_retries_left <;> simp
      unfold generation_attempts
      simp [hb]

/-- Claim C1: with the default configuration (`create_retry_strategy 2`),
the loop of `_generate_with_retry` starts from a context created by
`create_context` with `attempt = 1` and `max_attempts = 2`; it performs a
generation attempt exactly when `has_retries_left` (`attempt < max_attempts`)
holds; on a retryable failure it increments `attempt` and loops; the number
of generation attempts never exceeds 2; and when the attempts are exhausted
it returns the failure that asks the user to rephrase the request. -/
theorem retry_loop_bounded (user_message : String)
    (gen : RetryContext → GenOutcome) :
    ((create_retry_strategy 2 true).create_context user_message "").attempt = 1
    ∧ ((create_retry_strategy 2 true).create_context user_message
        "").max_attempts = 2
    ∧ generation_attempts (create_retry_strategy 2 true) gen
        ((create_retry_strategy 2 true).create_context user_message "") ≤ 2
    ∧ (∀ ctx : RetryContext, ctx.has_retries_left = true →
        1 ≤ generation_attempts (create_retry_strategy 2 true) gen ctx)
    ∧ (∀ ctx : RetryContext, ctx.has_retries_left = false →
        generation_attempts (create_retry_strategy 2 true) gen ctx = 0
        ∧ generate_with_retry (create_retry_strategy 2 true) gen ctx
            = GenResult.error exhausted_error)
    ∧ (∀ (ctx : RetryContext) (errs : List String) (q : String),
        ctx.has_retries_left = true →
        gen ctx = GenOutcome.validation_failed errs q →
        ((create_retry_strategy 2 true).should_retry ctx
            (String.intercalate "; " errs) (some q)).1 ≠ RetryDecision.fail →
        (create_retry_strategy 2 true).check_duplicate_query
            ((create_retry_strategy 2 true).should_retry ctx
              (String.intercalate "; " errs) (some q)).2 q = false →
        generate_with_retry (create_retry_strategy 2 true) gen ctx
          = generate_with_retry (create_retry_strategy 2 true) gen
              ((create_retry_strategy 2 true).should_retry ctx
                (String.intercalate "; " errs) (some q)).2.next_attempt)
    ∧ (∀ (ctx : RetryContext) (e : String) (rq : Option String),
        ctx.has_retries_left = true →
        gen ctx = GenOutcome.raises e rq →
        is_retryable_error e = true →
        ((create_retry_strategy 2 true).should_retry ctx e rq).1
            ≠ RetryDecision.fail →
        generate_with_retry (create_retry_strategy 2 true) gen ctx
          = generate_with_retry (create_retry_strategy 2 true) gen
              ((create_retry_strategy 2 true).should_retry ctx
                e rq).2.next_attempt)
    ∧ strContains exhausted_error "rephrase" = true := by
  refine ⟨rfl, rfl, ?_, ?_, ?_, ?_, ?_, by decide⟩
  · have h := generation_attempts_le_aux 1 (create_retry_strategy 2 true) gen
      ((create_retry_strategy 2 true).create_context user_message "")
      (by simp [RetryStrategy.create_context, create_retry_strategy])
    simp only [RetryStrategy.create_context, create_retry_strategy] at h ⊢
    omega
  · intro ctx h
    unfold generation_attempts
    rcases hg : gen ctx with q | ⟨errs, fq⟩ | ⟨q, res⟩ | ⟨e, rq⟩ <;>
      simp only [hg, h, dif_pos] <;>
      first
        | omega
        | (split <;> first | omega | (split <;> omega))
  · intro ctx h
    constructor
    · unfold generation_attempts
      simp [h]
    · unfold generate_with_retry
      simp [h]
  · intro ctx errs q h₁ h₂ h₃ h₄
    conv =>
      lhs
      rw [generate_with_retry]
    simp [h₁, h₂, h₃, h₄]
  · intro ctx e rq h₁ h₂ h₃ h₄
    conv =>
      lhs
      rw [generate_with_retry]
    simp [h₁, h₂, h₃, h₄]

/-- Witness for C1: concrete runs of the loop — with a generator that always
fails retryably at execution, the default strategy performs one generation
attempt (which is `≤ 2`) and then returns the exhaustion failure. -/
theorem retry_loop_bounded_witness :
    generation_attempts (create_retry_strategy 2 true)
        (fun _ => GenOutcome.raises "Cannot query field x" none)
        ((create_retry_strategy 2 true).create_context "msg" "") ≤ 2
    ∧ generate_with_retry (create_retry_strategy 2 true)
        (fun _ => GenOutcome.raises "Cannot query field x" none)
        ⟨2, 2, "", "msg", some "Cannot query field x", none,
          ["Cannot query field x"]⟩
      = GenResult.error exhausted_error := by
  have h := retry_loop_bounded "msg"
    (fun _ => GenOutcome.raises "Cannot query field x" none)
  exact ⟨h.2.2.1, (h.2.2.2.2.1 _ (by decide)).2⟩

/-! ### Claim C5: handler errors become chat replies -/

/-- Claim C5: errors raised during a handler's GraphQL execution are caught
and turned into a user-facing reply rather than propagated: when the
`createNote` mutation raises in `create_note_from_message` (on a message that
parses to a valid note) the handler replies `"❌ Error creating note. Please
try again."` and returns normally, and the archived `handle_message` converts
any exception from message processing into exactly one formatted error
reply. -/
theorem errors_become_replies :
    (∀ (message_text e : String),
      (parse_note message_text).1.isEmpty = false →
      (parse_note message_text).2.1.isEmpty = false →
      create_note_reply message_text (Except.error e) = note_error_reply)
    ∧ (∀ (formatter : Option (String → String → Except String String))
        (user_message e : String),
      handle_message_replies formatter user_message (Except.error e)
        = [handle_message_error_reply formatter e user_message])
    ∧ (∀ (formatter : Option (String → String → Except String String))
        (user_message e : String),
      (handle_message_replies formatter user_message (Except.error e)).length
        = 1) := by
  refine ⟨?_, fun formatter user_message e => rfl,
    fun formatter user_message e => rfl⟩
  intro message_text e h₁ h₂
  unfold create_note_reply
  simp [h₁, h₂]

/-- Witness for C5: a concrete note message whose `createNote` call raises
gets the canned error reply; a concrete processing exception without a
formatter gets the fallback reply. -/
theorem errors_become_replies_witness :
    create_note_reply "Grocery list\nbuy milk #errands" (Except.error "boom")
      = note_error_reply
    ∧ handle_message_replies none "hi" (Except.error "boom")
      = [no_formatter_reply] := by
  have h := errors_become_replies
  exact ⟨h.1 "Grocery list\nbuy milk #errands" "boom" (by decide) (by decide),
    (h.2.1 none "hi" "boom").trans rfl⟩

/-! ### Claim C6: the background notification loop -/

theorem process_user_notifications_channel (tid : Nat) (l : List NotifData) :
    ∀ t n, (t, n) ∈ process_user_notifications tid l →
      n.channel = "telegram" := by
  induction l with
  | nil => intro t n h; simp [process_user_notifications] at h
  | cons notif rest ih =>
    intro t n h
    rw [process_user_notifications] at h
    by_cases hc : (notif.channel == "telegram") = true
    · rw [if_pos hc] at h
      rcases List.mem_cons.mp h with heq | hmem
      · obtain ⟨-, rfl⟩ := Prod.mk.injEq .. ▸ heq
        injection heq with _ hn
        exact hn ▸ (by simpa using hc)
      · exact ih t n hmem
    · rw [if_neg hc] at h
      exact ih t n h

/-- Claim C6: the background notification loop runs forever with a fixed
sleep (default 60 seconds) between passes; a pass over an empty
`active_users` dictionary sends nothing; and a notification whose channel is
not `'telegram'` is never sent. -/
theorem notification_loop_spec
    (active_users : List ActiveUser) (pending : Nat → List NotifData)
    (interval passes : Nat) :
    check_and_send_notifications [] pending = []
    ∧ (∀ t n, (t, n) ∈ check_and_send_notifications active_users pending →
        n.channel = "telegram")
    ∧ (notification_loop active_users pending interval passes).length
        = 2 * passes
    ∧ (∀ s, LoopEvent.sleep s ∈
        notification_loop active_users pending interval passes → s = interval)
    ∧ notification_interval = 60 := by
  refine ⟨rfl, ?_, ?_, ?_, rfl⟩
  · intro t n h
    unfold check_and_send_notifications at h
    by_cases he : active_users.isEmpty = true
    · rw [if_pos he] at h
      simp at h
    · rw [if_neg he] at h
      obtain ⟨user, -, hmem⟩ := List.mem_flatMap.mp h
      rcases hu : user.gql_client with - | c
      · rw [hu] at hmem
        simp at hmem
      · rw [hu] at hmem
        exact process_user_notifications_channel user.telegram_id _ t n hmem
  · induction passes with
    | zero => rfl
    | succ p ih =>
      rw [notification_loop]
      simp only [List.length_cons, ih]
      omega
  · induction passes with
    | zero => intro s h; simp [notification_loop] at h
    | succ p ih =>
      intro s h
      rw [notification_loop] at h
      rcases List.mem_cons.mp h with heq | h
      · exact absurd heq (by simp)
      · rcases List.mem_cons.mp h with heq | h
        · injection heq
        · exact ih s h

/-! ### Claim C8: extracted queries have balanced, nonzero braces -/

theorem count_dropWhile_eq (l : List Char) (c : Char)
    (hc : isPySpace c = false) :
    (l.dropWhile isPySpace).count c = l.count c := by
  conv_rhs => rw [← List.takeWhile_append_dropWhile (p := isPySpace) (l := l)]
  rw [List.count_append]
  have h0 : (l.takeWhile isPySpace).count c = 0 := by
    rw [List.count_eq_zero]
    intro hmem
    exact absurd (List.mem_takeWhile_imp hmem) (by simp [hc])
  omega

theorem count_pyStrip (l : List Char) (c : Char) (hc : isPySpace c = false) :
    (pyStrip l).count c = l.count c := by
  unfold pyStrip
  rw [List.count_reverse, count_dropWhile_eq _ _ hc, List.count_reverse,
    count_dropWhile_eq _ _ hc]

theorem validate_brackets_balanced (q s : String)
    (h : validate_brackets q = some s) :
    s.data.count lbrace = s.data.count rbrace ∧ 0 < s.data.count lbrace := by
  unfold validate_brackets at h
  by_cases h1 : q.data.count lbrace ≠ q.data.count rbrace
  · rw [if_pos h1] at h
    exact absurd h (by simp)
  · rw [if_neg h1] at h
    push_neg at h1
    by_cases h2 : (q.data.count lbrace == 0) = true
    · rw [if_pos h2] at h
      exact absurd h (by simp)
    · rw [if_neg h2] at h
      injection h with hs
      subst hs
      have hl : isPySpace lbrace = false := by decide
      have hr : isPySpace rbrace = false := by decide
      have h2' : q.data.count lbrace ≠ 0 := by simpa using h2
      constructor
      · show (pyStrip q.data).count lbrace = (pyStrip q.data).count rbrace
        rw [count_pyStrip _ _ hl, count_pyStrip _ _ hr]
        exact h1
      · show 0 < (pyStrip q.data).count lbrace
        rw [count_pyStrip _ _ hl]
        omega

/-- Claim C8: whenever `_extract_query_structured` returns a query string
(rather than `None`), that string contains an equal and nonzero number of
opening and closing braces, because every successful return path passes
through `_validate_brackets`. -/
theorem extract_query_structured_balanced (re : ReOracle) (text s : String)
    (h : extract_query_structured re text = some s) :
    s.data.count lbrace = s.data.count rbrace
    ∧ 0 < s.data.count lbrace := by
  simp only [extract_query_structured] at h
  split at h
  · exact validate_brackets_balanced _ _ h
  · split at h
    · exact validate_brackets_balanced _ _ h
    · split at h
      · exact validate_brackets_balanced _ _ h
      · split at h
        · exact validate_brackets_balanced _ _ h
        · exact absurd h (by simp)

/-- The oracle in which no regex matches anything: the fall-through
behaviour of the extractor. -/
def trivial_re : ReOracle :=
  { code_block := fun _ => none
    strip_conversational := fun t => t
    keyword_search := fun _ _ => none
    brace_search := fun _ => none }

/-- Witness for C8: a concrete well-bracketed query is returned unchanged by
the extractor and has balanced, nonzero braces. -/
theorem extract_query_structured_balanced_witness :
    extract_query_structured trivial_re
        "query \x7b activeSession \x7b id \x7d \x7d"
      = some "query \x7b activeSession \x7b id \x7d \x7d"
    ∧ ("query \x7b activeSession \x7b id \x7d \x7d".data.count lbrace
        = "query \x7b activeSession \x7b id \x7d \x7d".data.count rbrace
      ∧ 0 < "query \x7b activeSession \x7b id \x7d \x7d".data.count lbrace) :=
  ⟨by decide,
    extract_query_structured_balanced trivial_re
      "query \x7b activeSession \x7b id \x7d \x7d"
      "query \x7b activeSession \x7b id \x7d \x7d" (by decide)⟩

/-! ### Claim C4: bounded, threshold-filtered context retrieval -/

theorem collect_examples_length (m : Nat) :
    ∀ (acc l : List RagDoc), acc.length < m →
      (collect_examples m acc l).length ≤ m := by
  intro acc l
  induction l generalizing acc with
  | nil =>
    intro h
    simp only [collect_examples]
    omega
  | cons e rest ih =>
    intro h
    simp only [collect_examples]
    by_cases hs : e.score.getD 999 < RELEVANCE_THRESHOLD
    · simp only [if_pos hs]
      have hlen : (acc ++ [e]).length = acc.length + 1 := by simp
      by_cases hb : m ≤ (acc ++ [e]).length
      · simp only [if_pos hb]
        omega
      · simp only [if_neg hb]
        exact ih _ (by omega)
    · simp only [if_neg hs]
      by_cases hb : m ≤ acc.length
      · simp only [if_pos hb]
        omega
      · simp only [if_neg hb]
        exact ih _ (by omega)

theorem loosen_examples_length (m : Nat) :
    ∀ (acc l : List RagDoc), acc.length < m →
      (loosen_examples m acc l).length ≤ m := by
  intro acc l
  induction l generalizing acc with
  | nil =>
    intro h
    simp only [loosen_examples]
    omega
  | cons e rest ih =>
    intro h
    simp only [loosen_examples]
    have hA : (acc ++ [e]).length = acc.length + 1 := by simp
    split
    · omega
    · exact ih _ (by omega)

theorem collect_examples_sub (m : Nat) :
    ∀ (acc l : List RagDoc), ∀ x ∈ collect_examples m acc l,
      x ∈ acc ∨ (x ∈ l ∧ x.score.getD 999 < RELEVANCE_THRESHOLD) := by
  intro acc l
  induction l generalizing acc with
  | nil =>
    intro x hx
    exact Or.inl hx
  | cons e rest ih =>
    intro x hx
    simp only [collect_examples] at hx
    by_cases hs : e.score.getD 999 < RELEVANCE_THRESHOLD
    · simp only [if_pos hs] at hx
      have hcase : x ∈ acc ++ [e] ∨
          (x ∈ rest ∧ x.score.getD 999 < RELEVANCE_THRESHOLD) := by
        split at hx
        · exact Or.inl hx
        · rcases ih (acc ++ [e]) x hx with hl | ⟨hr₁, hr₂⟩
          · exact Or.inl hl
          · exact Or.inr ⟨hr₁, hr₂⟩
      rcases hcase with hl | ⟨hr₁, hr₂⟩
      · rcases List.mem_append.mp hl with ha | he
        · exact Or.inl ha
        · have : x = e := by simpa using he
          exact Or.inr ⟨by simp [this], this ▸ hs⟩
      · exact Or.inr ⟨List.mem_cons_of_mem _ hr₁, hr₂⟩
    · simp only [if_neg hs] at hx
      split at hx
      · exact Or.inl hx
      · rcases ih acc x hx with hl | ⟨hr₁, hr₂⟩
        · exact Or.inl hl
        · exact Or.inr ⟨List.mem_cons_of_mem _ hr₁, hr₂⟩

theorem collect_examples_all (m : Nat) :
    ∀ (acc l : List RagDoc), (collect_examples m acc l).length < m →
      collect_examples m acc l
        = acc ++ l.filter
            (fun e => decide (e.score.getD 999 < RELEVANCE_THRESHOLD)) := by
  intro acc l
  induction l generalizing acc with
  | nil =>
    intro h
    simp [collect_examples]
  | cons e rest ih =>
    intro h
    simp only [collect_examples] at h ⊢
    by_cases hs : e.score.getD 999 < RELEVANCE_THRESHOLD
    · simp only [if_pos hs] at h ⊢
      by_cases hb : m ≤ (acc ++ [e]).length
      · simp only [if_pos hb] at h
        omega
      · simp only [if_neg hb] at h ⊢
        rw [ih (acc ++ [e]) h, List.filter_cons]
        simp [hs]
    · simp only [if_neg hs] at h ⊢
      by_cases hb : m ≤ acc.length
      · simp only [if_pos hb] at h
        omega
      · simp only [if_neg hb] at h ⊢
        rw [ih acc h, List.filter_cons]
        simp [hs]

/-- Claim C4: `get_relevant_context` returns at most `max_examples`
(default 3) example documents and at most 3 schema documents; an example
whose L2-distance score is `≥ 1.5` can only be included via the fallback,
i.e. when fewer than `max_examples` of the retrieved examples score below
the threshold. -/
theorem get_relevant_context_bounds (search : String → Nat → List RagDoc)
    (query : String) (max_examples : Nat) (hm : 1 ≤ max_examples) :
    (get_relevant_context search query max_examples).examples.length
        ≤ max_examples
    ∧ (get_relevant_context search query max_examples).schema_parts.length ≤ 3
    ∧ (∀ e ∈ (get_relevant_context search query max_examples).examples,
        RELEVANCE_THRESHOLD ≤ e.score.getD 999 →
        (((search (preprocess_query query) 15).filter
            (fun r => r.type == "example")).filter
          (fun r => decide (r.score.getD 999 < RELEVANCE_THRESHOLD))).length
          < max_examples) := by
  set all := (search (preprocess_query query) 15).filter
    (fun r => r.type == "example") with hall
  set base := collect_examples max_examples [] all with hbase
  have hE : (get_relevant_context search query max_examples).examples
      = (if base.length < max_examples then
          loosen_examples max_examples base (all.drop base.length)
        else base) := rfl
  have hS : (get_relevant_context search query max_examples).schema_parts
      = ((search (preprocess_query query) 15).filter
          (fun r => r.type == "schema")).take 3 := rfl
  refine ⟨?_, ?_, ?_⟩
  · rw [hE]
    split
    · exact loosen_examples_length max_examples base _ (by omega)
    · exact collect_examples_length max_examples [] all
        (by simp only [List.length_nil]; omega)
  · rw [hS, List.length_take]
    omega
  · intro e he hge
    rw [hE] at he
    by_cases hP : base.length < max_examples
    · have h' : (collect_examples max_examples [] all).length < max_examples := by
        rw [← hbase]
        exact hP
      have hcoll := collect_examples_all max_examples [] all h'
      simp only [List.nil_append] at hcoll
      rw [← hcoll, ← hbase]
      exact hP
    · rw [if_neg hP] at he
      rw [hbase] at he
      rcases collect_examples_sub max_examples [] all e he with hl | ⟨-, hlt⟩
      · simp at hl
      · exact absurd hlt (not_lt.mpr hge)

/-- A concrete retrieval oracle for the witness. -/
def demo_search : String → Nat → List RagDoc := fun _ _ =>
  [⟨"example", some 1⟩, ⟨"schema", some (1 / 2)⟩, ⟨"example", some 2⟩,
   ⟨"example", none⟩, ⟨"schema", some 1⟩]

/-- Witness for C4: the bounds hold on a concrete retrieval result at the
default `max_examples = 3`. -/
theorem get_relevant_context_bounds_witness :
    (get_relevant_context demo_search "show my notes" 3).examples.length ≤ 3
    ∧ (get_relevant_context demo_search "show my notes" 3).schema_parts.length
        ≤ 3 := by
  have h := get_relevant_context_bounds demo_search "show my notes" 3
    (by decide)
  exact ⟨h.1, h.2.1⟩

/-! ### Claim C10: idempotence of `_normalize_query` -/

theorem char_shift_facts (n : Nat) (h1 : 65 ≤ n) (h2 : n ≤ 90) :
    isPySpace (Char.ofNat (n + 32)) = false
    ∧ (Char.ofNat (n + 32)).toLower = Char.ofNat (n + 32) := by
  interval_cases n <;> exact ⟨by decide, by decide⟩

theorem isPySpace_toLower (c : Char) : isPySpace c.toLower = isPySpace c := by
  simp only [Char.toLower]
  split
  · next h =>
    rw [(char_shift_facts c.toNat h.1 h.2).1]
    symm
    simp only [isPySpace, Bool.or_eq_false_iff, beq_eq_false_iff_ne, ne_eq]
    omega
  · rfl

theorem toLower_toLower (c : Char) : c.toLower.toLower = c.toLower := by
  by_cases h : c.toNat ≥ 65 ∧ c.toNat ≤ 90
  · have h1 : c.toLower = Char.ofNat (c.toNat + 32) := by
      simp only [Char.toLower]
      rw [if_pos h]
    rw [h1, (char_shift_facts c.toNat h.1 h.2).2]
  · have h1 : c.toLower = c := by
      simp only [Char.toLower]
      rw [if_neg h]
    rw [h1, h1]

theorem headOk_dropWhile (l : List Char) :
    headOk (l.dropWhile isPySpace) := by
  induction l with
  | nil => intro c hc; simp at hc
  | cons a l ih =>
    by_cases ha : isPySpace a = true
    · simpa [List.dropWhile_cons, ha] using ih
    · intro c hc
      simp only [List.dropWhile_cons, ha] at hc
      simp only [Bool.false_eq_true, if_false, List.head?_cons,
        Option.some.injEq] at hc
      rw [← hc]
      simpa using ha

theorem dropWhile_eq_self_of_headOk (l : List Char) (h : headOk l) :
    l.dropWhile isPySpace = l := by
  cases l with
  | nil => rfl
  | cons a l =>
    have ha := h a rfl
    simp [List.dropWhile_cons, ha]

theorem strip_eq_self (l : List Char) (h1 : headOk l) (h2 : lastOk l) :
    pyStrip l = l := by
  unfold pyStrip
  rw [dropWhile_eq_self_of_headOk l h1]
  have hrev : headOk l.reverse := by
    intro c hc
    rw [List.head?_reverse] at hc
    exact h2 c hc
  rw [dropWhile_eq_self_of_headOk l.reverse hrev, List.reverse_reverse]

theorem headOk_pyStrip (l : List Char) : headOk (pyStrip l) := by
  intro c hc
  unfold pyStrip at hc
  rw [List.head?_reverse] at hc
  obtain ⟨pre, hpre⟩ :=
    List.dropWhile_suffix (l := (l.dropWhile isPySpace).reverse)
      (p := isPySpace)
  have hne : (l.dropWhile isPySpace).reverse.dropWhile isPySpace ≠ [] := by
    intro hz
    rw [hz] at hc
    simp at hc
  have hlast : ((l.dropWhile isPySpace).reverse).getLast? = some c := by
    rw [← hpre, List.getLast?_append_of_ne_nil pre hne]
    exact hc
  rw [List.getLast?_reverse] at hlast
  exact headOk_dropWhile l c hlast

theorem lastOk_pyStrip (l : List Char) : lastOk (pyStrip l) := by
  intro c hc
  unfold pyStrip at hc
  rw [List.getLast?_reverse] at hc
  exact headOk_dropWhile (l.dropWhile isPySpace).reverse c hc

theorem auxTrue_headOk (l : List Char) : headOk (reSubSpaceAux true l) := by
  induction l with
  | nil => intro c hc; simp [reSubSpaceAux] at hc
  | cons a rest ih =>
    by_cases ha : isPySpace a = true
    · simpa [reSubSpaceAux, ha] using ih
    · intro c hc
      simp only [reSubSpaceAux, ha, Bool.false_eq_true, if_false,
        List.head?_cons, Option.some.injEq] at hc
      rw [← hc]
      simpa using ha

theorem auxFalse_headOk (l : List Char) (h : headOk l) :
    headOk (reSubSpaceAux false l) := by
  cases l with
  | nil => intro c hc; simp [reSubSpaceAux] at hc
  | cons a rest =>
    have ha := h a rfl
    intro c hc
    simp only [reSubSpaceAux, ha, Bool.false_eq_true, if_false,
      List.head?_cons, Option.some.injEq] at hc
    rw [← hc]
    exact ha

theorem aux_ne_nil (l : List Char) :
    ∀ flag, (∃ c ∈ l, isPySpace c = false) → reSubSpaceAux flag l ≠ [] := by
  induction l with
  | nil =>
    intro flag h
    simp at h
  | cons a rest ih =>
    intro flag ⟨d, hd, hds⟩
    by_cases ha : isPySpace a = true
    · have hdr : d ∈ rest := by
        rcases List.mem_cons.mp hd with rfl | hr
        · rw [ha] at hds; exact absurd hds (by simp)
        · exact hr
      cases flag with
      | true =>
        simp only [reSubSpaceAux, ha, if_true]
        exact ih true ⟨d, hdr, hds⟩
      | false =>
        simp [reSubSpaceAux, ha]
    · simp [reSubSpaceAux, ha]

theorem aux_lastOk (l : List Char) :
    ∀ flag, lastOk l → lastOk (reSubSpaceAux flag l) := by
  induction l with
  | nil =>
    intro flag _ c hc
    simp [reSubSpaceAux] at hc
  | cons a rest ih =>
    intro flag h
    cases rest with
    | nil =>
      have ha : isPySpace a = false := h a rfl
      intro c hc
      simp only [reSubSpaceAux, ha, Bool.false_eq_true, if_false] at hc
      simp only [List.getLast?_singleton, Option.some.injEq] at hc
      rw [← hc]
      exact ha
    | cons b rest2 =>
      have hrest : lastOk (b :: rest2) := by
        intro d hd
        exact h d (by rw [List.getLast?_cons_cons]; exact hd)
      have hex : ∃ d ∈ (b :: rest2), isPySpace d = false := by
        have hmem := List.getLast_mem (l := b :: rest2) (by simp)
        exact ⟨(b :: rest2).getLast (by simp), hmem,
          hrest _ (List.getLast?_eq_getLast _ (by simp))⟩
      have hcons : ∀ (x : Char) (flag' : Bool),
          lastOk (x :: reSubSpaceAux flag' (b :: rest2)) := by
        intro x flag' c hc
        rcases hY : reSubSpaceAux flag' (b :: rest2) with - | ⟨y, Y⟩
        · exact absurd hY (aux_ne_nil (b :: rest2) flag' hex)
        · rw [hY, List.getLast?_cons_cons] at hc
          exact ih flag' hrest c (by rw [hY]; exact hc)
      by_cases ha : isPySpace a = true
      · cases flag with
        | true =>
          simpa only [reSubSpaceAux, ha, if_true] using ih true hrest
        | false =>
          simp only [reSubSpaceAux, ha, if_true, Bool.false_eq_true, if_false]
          exact hcons ' ' true
      · simp only [reSubSpaceAux, ha, Bool.false_eq_true, if_false]
        exact hcons a false

theorem aux_spaces (l : List Char) :
    ∀ flag, ∀ c ∈ reSubSpaceAux flag l, isPySpace c = true → c = ' ' := by
  induction l with
  | nil =>
    intro flag c hc
    simp [reSubSpaceAux] at hc
  | cons a rest ih =>
    intro flag c hc hcs
    by_cases ha : isPySpace a = true
    · cases flag with
      | true =>
        simp only [reSubSpaceAux, ha, if_true] at hc
        exact ih true c hc hcs
      | false =>
        simp only [reSubSpaceAux, ha, if_true, Bool.false_eq_true,
          if_false] at hc
        rcases List.mem_cons.mp hc with rfl | hmem
        · rfl
        · exact ih true c hmem hcs
    · simp only [reSubSpaceAux, ha, Bool.false_eq_true, if_false] at hc
      rcases List.mem_cons.mp hc with rfl | hmem
      · rw [hcs] at ha
        exact absurd rfl ha
      · exact ih false c hmem hcs

theorem aux_chain (l : List Char) :
    ∀ flag, (reSubSpaceAux flag l).Chain'
      (fun a b => ¬(isPySpace a = true ∧ isPySpace b = true)) := by
  induction l with
  | nil =>
    intro flag
    simp [reSubSpaceAux]
  | cons a rest ih =>
    intro flag
    by_cases ha : isPySpace a = true
    · cases flag with
      | true =>
        simpa only [reSubSpaceAux, ha, if_true] using ih true
      | false =>
        simp only [reSubSpaceAux, ha, if_true, Bool.false_eq_true, if_false]
        refine List.chain'_cons'.mpr ⟨?_, ih true⟩
        intro b hb hpair
        have hbo : (reSubSpaceAux true rest).head? = some b := hb
        have hbf := auxTrue_headOk rest b hbo
        rw [hbf] at hpair
        exact absurd hpair.2 (by simp)
    · simp only [reSubSpaceAux, ha, Bool.false_eq_true, if_false]
      refine List.chain'_cons'.mpr ⟨?_, ih false⟩
      intro b hb hpair
      exact ha hpair.1

theorem aux_true_false_eq (l : List Char) (h : headOk l) :
    reSubSpaceAux true l = reSubSpaceAux false l := by
  cases l with
  | nil => rfl
  | cons a rest =>
    have ha := h a rfl
    simp [reSubSpaceAux, ha]

theorem collapsed_fix (l : List Char)
    (h1 : ∀ c ∈ l, isPySpace c = true → c = ' ')
    (h2 : l.Chain' (fun a b => ¬(isPySpace a = true ∧ isPySpace b = true))) :
    reSubSpaceAux false l = l := by
  induction l with
  | nil => rfl
  | cons a rest ih =>
    obtain ⟨hhead, htail⟩ := List.chain'_cons'.mp h2
    by_cases ha : isPySpace a = true
    · have ha' : a = ' ' := h1 a (by simp) ha
      have hOk : headOk rest := by
        intro b hb
        by_contra hbs
        exact hhead b hb ⟨ha, by simpa using hbs⟩
      simp only [reSubSpaceAux, ha, if_true, Bool.false_eq_true, if_false]
      rw [aux_true_false_eq rest hOk,
        ih (fun c hc => h1 c (List.mem_cons_of_mem _ hc)) htail, ha']
    · simp only [reSubSpaceAux, ha, Bool.false_eq_true, if_false]
      rw [ih (fun c hc => h1 c (List.mem_cons_of_mem _ hc)) htail]

theorem headOk_map_toLower (l : List Char) (h : headOk l) :
    headOk (l.map Char.toLower) := by
  intro c hc
  rw [List.head?_map] at hc
  obtain ⟨a, ha, hfa⟩ := Option.map_eq_some'.mp hc
  rw [← hfa, isPySpace_toLower]
  exact h a ha

theorem lastOk_map_toLower (l : List Char) (h : lastOk l) :
    lastOk (l.map Char.toLower) := by
  intro c hc
  rw [List.getLast?_map] at hc
  obtain ⟨a, ha, hfa⟩ := Option.map_eq_some'.mp hc
  rw [← hfa, isPySpace_toLower]
  exact h a ha

theorem spaces_map_toLower (l : List Char)
    (h : ∀ c ∈ l, isPySpace c = true → c = ' ') :
    ∀ c ∈ l.map Char.toLower, isPySpace c = true → c = ' ' := by
  intro c hc hcs
  obtain ⟨a, ha, rfl⟩ := List.mem_map.mp hc
  rw [isPySpace_toLower] at hcs
  rw [h a ha hcs]
  decide

theorem chain_map_toLower (l : List Char)
    (h : l.Chain' (fun a b => ¬(isPySpace a = true ∧ isPySpace b = true))) :
    (l.map Char.toLower).Chain'
      (fun a b => ¬(isPySpace a = true ∧ isPySpace b = true)) := by
  rw [List.chain'_map]
  refine h.imp ?_
  intro a b hab hpair
  rw [isPySpace_toLower, isPySpace_toLower] at hpair
  exact hab hpair

theorem map_toLower_idem (l : List Char) :
    (l.map Char.toLower).map Char.toLower = l.map Char.toLower := by
  rw [List.map_map]
  induction l with
  | nil => rfl
  | cons a rest ih =>
    simp only [List.map_cons, Function.comp_apply, toLower_toLower]
    rw [ih]

theorem normalize_chars_idem (l : List Char) :
    (reSubSpace (pyStrip ((reSubSpace (pyStrip l)).map Char.toLower))).map
        Char.toLower
      = (reSubSpace (pyStrip l)).map Char.toLower := by
  have hS1 : headOk (pyStrip l) := headOk_pyStrip l
  have hS2 : lastOk (pyStrip l) := lastOk_pyStrip l
  have hL1 : headOk (reSubSpace (pyStrip l)) := auxFalse_headOk _ hS1
  have hL2 : lastOk (reSubSpace (pyStrip l)) := aux_lastOk _ false hS2
  have hM1 : headOk ((reSubSpace (pyStrip l)).map Char.toLower) :=
    headOk_map_toLower _ hL1
  have hM2 : lastOk ((reSubSpace (pyStrip l)).map Char.toLower) :=
    lastOk_map_toLower _ hL2
  have hMP : ∀ c ∈ (reSubSpace (pyStrip l)).map Char.toLower,
      isPySpace c = true → c = ' ' :=
    spaces_map_toLower _ (aux_spaces (pyStrip l) false)
  have hMC : ((reSubSpace (pyStrip l)).map Char.toLower).Chain'
      (fun a b => ¬(isPySpace a = true ∧ isPySpace b = true)) :=
    chain_map_toLower _ (aux_chain (pyStrip l) false)
  have e2 : reSubSpace ((reSubSpace (pyStrip l)).map Char.toLower)
      = (reSubSpace (pyStrip l)).map Char.toLower :=
    collapsed_fix _ hMP hMC
  rw [strip_eq_self _ hM1 hM2, e2]
  exact map_toLower_idem _

/-- Claim C10: `_normalize_query` is idempotent — normalizing an already
normalized query changes nothing — so the duplicate-query comparison of
`check_duplicate_query` is insensitive to runs of whitespace,
leading/trailing whitespace, and letter case. -/
theorem normalize_query_idempotent (q : String) :
    normalize_query (normalize_query q) = normalize_query q :=
  congrArg String.mk (normalize_chars_idem q.data)

end Lifetrack
